import Mathlib

/-!
Verification of the recipe-management API (Django/DRF application).

A shallow embedding of the application's data model and operations:
`core/models.py` (UserManager, User, Tag, Ingredient, Recipe),
`recipe/serializers.py` (RecipeSerializer and its nested-tag reconciliation),
and the view layer described by the specification.  Database state is an
explicit `DB` record threaded through every operation; Django ORM calls
(`get_or_create`, `objects.create`, m2m `add`/`clear`, `save` with a unique
column) are modelled by their documented semantics.  Python exceptions are
modelled with `Except`.
-/

set_option maxRecDepth 4000

/-- What the password column of a user row can hold: `plain s` is a raw string
written without hashing (what assigning `user.password = password` directly
would store), `hashed s` is the one-way hash of `s` produced by
`set_password`. -/
inductive PasswordHash where
  | plain (pw : String)
  | hashed (pw : String)
deriving DecidableEq

/-- `check_password pw stored`: hash verification of the candidate `pw`
against the stored value; an unhashed stored value never verifies. -/
def check_password (pw : String) : PasswordHash → Bool
  | PasswordHash.plain _ => false
  | PasswordHash.hashed p => pw == p

/-- A row of the custom user model (`core/models.py`, class User):
email is a unique column, password is stored via `set_password`. -/
structure User where
  id : Nat
  email : String
  password : PasswordHash
  is_staff : Bool := false
  is_superuser : Bool := false
deriving DecidableEq

/-- A row of the Tag model: `{id, name, user}` (owner). -/
structure Tag where
  id : Nat
  name : String
  user : Nat
deriving DecidableEq

/-- A row of the Ingredient model: `{id, name, user}` (owner). -/
structure Ingredient where
  id : Nat
  name : String
  user : Nat
deriving DecidableEq

/-- A row of the Recipe model, with its two many-to-many link sets stored as
lists of label ids (Django m2m `add` never duplicates a link, see `m2m_add`). -/
structure Recipe where
  id : Nat
  user : Nat
  title : String
  description : String
  price : Int
  duration : Nat
  tags : List Nat
  ingredients : List Nat
deriving DecidableEq

/-- The relational store: one table per model plus the id sequences. -/
structure DB where
  users : List User
  tags : List Tag
  ingredients : List Ingredient
  recipes : List Recipe
  next_user_id : Nat
  next_tag_id : Nat
  next_recipe_id : Nat
deriving DecidableEq

/-- The empty database. -/
def DB.empty : DB :=
  { users := [], tags := [], ingredients := [], recipes := []
    next_user_id := 1, next_tag_id := 1, next_recipe_id := 1 }

/-- Look a recipe up by primary key. -/
def DB.findRecipe (db : DB) (rid : Nat) : Option Recipe :=
  db.recipes.find? (fun r => r.id == rid)

/-- Apply `f` to the recipe row with primary key `rid` (UPDATE by id). -/
def DB.updateRecipe (db : DB) (rid : Nat) (f : Recipe → Recipe) : DB :=
  { db with recipes := db.recipes.map (fun r => if r.id == rid then f r else r) }

/-- Django m2m `add`: linking an already linked id is a no-op. -/
def m2m_add (links : List Nat) (lid : Nat) : List Nat :=
  if lid ∈ links then links else links ++ [lid]

/-- Python `ValueError` / database `IntegrityError` raised on the user-creation
path. -/
inductive UserError where
  | valueError (msg : String)
  | integrityError (msg : String)
deriving DecidableEq

/-- Python `str.strip`: drop whitespace from both ends. -/
def py_strip (cs : List Char) : List Char :=
  ((cs.dropWhile Char.isWhitespace).reverse.dropWhile Char.isWhitespace).reverse

/-- Python `s.rsplit Sep 1` on characters: split at the LAST separator,
`none` when the separator does not occur. -/
def last_split : List Char → Option (List Char × List Char)
  | [] => none
  | c :: rest =>
    match last_split rest with
    | some (l, r) => some (c :: l, r)
    | none => if c = '@' then some ([], rest) else none

/-- `BaseUserManager.normalize_email` (Django): strip the address, split at the
last `@`, and lowercase only the domain part; an address without `@` is
returned unchanged (the `ValueError` of `rsplit` unpacking is swallowed). -/
def normalize_email (email : String) : String :=
  match last_split (py_strip email.data) with
  | none => email
  | some (name, domain) => ⟨name ++ '@' :: domain.map Char.toLower⟩

/-- `UserManager.create_user` (`core/models.py`): raise `ValueError` on a falsy
email; otherwise construct the user with the normalized email, store the
password as a one-way hash via `set_password`, and `save` — the unique email
column makes the save fail when another user already has that email. -/
def UserManager.create_user (db : DB) (email pw : String) :
    Except UserError (User × DB) :=
  if email = "" then
    Except.error (UserError.valueError "User must have an email")
  else
    let u : User :=
      { id := db.next_user_id, email := normalize_email email
        password := PasswordHash.hashed pw }
    if db.users.any (fun v => v.email == u.email) then
      Except.error (UserError.integrityError "duplicate email")
    else
      Except.ok (u, { db with users := db.users ++ [u]
                              next_user_id := db.next_user_id + 1 })

/-- The database state after a `create_user` call: unchanged when the call
raised. -/
def create_user_state (db : DB) (email pw : String) : DB :=
  match UserManager.create_user db email pw with
  | Except.error _ => db
  | Except.ok (_, db') => db'

/-- A nested label descriptor `{name}` as accepted by the nested
`TagSerializer(many=True)` field of `RecipeSerializer`. -/
structure LabelData where
  name : String
deriving DecidableEq

/-- The body of a recipe create/update request, with every field the tests
exercise; `none` models an absent key. -/
structure RecipePayload where
  title : Option String := none
  description : Option String := none
  price : Option Int := none
  duration : Option Nat := none
  tags : Option (List LabelData) := none
  ingredients : Option (List LabelData) := none
  user : Option Nat := none
deriving DecidableEq

/-- The `validated_data` produced by `RecipeDetailSerializer.run_validation`:
only the writable fields declared in `Meta.fields` survive
(`['id', 'title', 'duration', 'price', 'tags']` plus `['description']` from the
detail subclass, with `id` read-only).  There is no `ingredients` field and no
`user` field, so those keys cannot appear here. -/
structure ValidatedData where
  title : Option String := none
  description : Option String := none
  price : Option Int := none
  duration : Option Nat := none
  tags : Option (List LabelData) := none
deriving DecidableEq

/-- A Python exception escaping serializer code: the `TypeError` of the broken
`update`, and the `AssertionError` DRF raises when a `ModelSerializer` is used
whose `Meta` declares neither `fields` nor `exclude`. -/
inductive PyError where
  | typeError (msg : String)
  | assertionError (msg : String)
deriving DecidableEq

/-- The exception raised the first time `TagSerializer`'s field set is built:
its `Meta` (`recipe/serializers.py`) spells `field = ['id', 'name']` instead
of `fields`, and DRF's `get_field_names` asserts that `fields` or `exclude`
is present.  Field building is lazy, so this fires on the first nested tag
item validated and on the first tag instance serialized — never for an empty
list. -/
def tagSerializerFieldsError : PyError :=
  PyError.assertionError
    "Creating a ModelSerializer without either the fields attribute or the exclude attribute is disallowed: TagSerializer"

/-- DRF validation for `RecipeDetailSerializer` (`recipe/serializers.py`,
`Meta.fields`): keys of the payload that are not declared serializer fields —
in particular `ingredients` and `user` — are silently dropped and the declared
writable fields are passed through.  But the nested
`tags = TagSerializer(many=True)` field validates each supplied item through
`TagSerializer`, whose field set cannot be built (`Meta` spells `field`, not
`fields`), so a payload carrying a NONEMPTY tags list raises before any data
is validated; an empty list or an absent key never touches the child
serializer and passes. -/
def RecipeDetailSerializer.run_validation (p : RecipePayload) :
    Except PyError ValidatedData :=
  match p.tags with
  | some (_ :: _) => Except.error tagSerializerFieldsError
  | _ =>
    Except.ok
      { title := p.title, description := p.description, price := p.price
        duration := p.duration, tags := p.tags }

/-- `Tag.objects.get_or_create(user=auth_user, name=...)`: return the first
existing row matching both the owner and the exact (case-sensitive) name, or
insert a fresh row owned by `auth_user` with that name. -/
def Tag.get_or_create (db : DB) (auth_user : Nat) (name : String) :
    Tag × DB :=
  match db.tags.find? (fun t => t.user == auth_user && t.name == name) with
  | some t => (t, db)
  | none =>
    let t : Tag := { id := db.next_tag_id, name := name, user := auth_user }
    (t, { db with tags := db.tags ++ [t], next_tag_id := db.next_tag_id + 1 })

/-- `RecipeSerializer._get_or_create_tags(tags, recipe)`
(`recipe/serializers.py`): for each descriptor, `get_or_create` scoped to
`self.context['request'].user` and then `recipe.tags.add(tag_obj)`. -/
def RecipeSerializer._get_or_create_tags (db : DB) (auth_user : Nat)
    (tags : List LabelData) (rid : Nat) : DB :=
  match tags with
  | [] => db
  | d :: rest =>
    let res := Tag.get_or_create db auth_user d.name
    let db2 := res.2.updateRecipe rid (fun r => { r with tags := m2m_add r.tags res.1.id })
    RecipeSerializer._get_or_create_tags db2 auth_user rest rid

/-- `RecipeSerializer.create(validated_data)` (`recipe/serializers.py`):
`tags = validated_data.pop('tags', [])`, create the recipe row from the scalar
fields (the view supplies `user=self.request.user` through `serializer.save`),
then `_get_or_create_tags(tags, recipe)`; the recipe is returned.  Nothing
touches the ingredients table: the serializer declares no `ingredients`
field.  `new_recipe_row` is the row built by
`Recipe.objects.create(**validated_data)` with the authenticated caller as
owner. -/
def new_recipe_row (db : DB) (auth_user : Nat) (vd : ValidatedData) : Recipe :=
  { id := db.next_recipe_id, user := auth_user
    title := vd.title.getD "", description := vd.description.getD ""
    price := vd.price.getD 0, duration := vd.duration.getD 0
    tags := [], ingredients := [] }

/-- The database with the freshly created, still label-free recipe row
appended (`Recipe.objects.create(**validated_data)`). -/
def insert_recipe (db : DB) (auth_user : Nat) (vd : ValidatedData) : DB :=
  { db with recipes := db.recipes ++ [new_recipe_row db auth_user vd]
            next_recipe_id := db.next_recipe_id + 1 }

def RecipeSerializer.create (db : DB) (auth_user : Nat) (vd : ValidatedData) :
    Recipe × DB :=
  let tags := vd.tags.getD []
  let db1 := insert_recipe db auth_user vd
  let db2 := RecipeSerializer._get_or_create_tags db1 auth_user tags
    db.next_recipe_id
  ((db2.findRecipe db.next_recipe_id).getD (new_recipe_row db auth_user vd), db2)

/-- `RecipeSerializer.update(instance, validated_data)`
(`recipe/serializers.py`): its first statement is
`tags = validated_data.pop['tags', None]`, which subscripts the bound method
`pop` instead of calling it, so every invocation raises
`TypeError: 'builtin_function_or_method' object is not subscriptable` before
any tag is cleared or any attribute is set.  (The later loop
`for attr, value in validated_data:` is likewise unreachable.) -/
def RecipeSerializer.update (db : DB) (auth_user : Nat) (rid : Nat)
    (vd : ValidatedData) : Except PyError (Recipe × DB) :=
  Except.error
    (PyError.typeError "builtin_function_or_method object is not subscriptable")

/-- An HTTP-level error outcome of a recipe endpoint.  `forbidden403` is never
produced by the code; it is present so that "404, not 403" is a contentful
statement. -/
inductive Http where
  | notFound404
  | forbidden403
  | serverError500 (e : PyError)
deriving DecidableEq

/-- Modelled from the spec: `recipe/views.py` is not under `src/` (only its
tests and the serializers it calls are).  Per §4.2/§6, the recipe viewset
authenticates the caller, validates the payload
(`serializer.is_valid(raise_exception=True)`), and `perform_create` saves the
serializer with `user=self.request.user`, so a created recipe is owned by the
authenticated caller.  An exception escaping validation — in particular the
nested `TagSerializer` field-building failure on a nonempty tags list — is a
500 and nothing is created. -/
def recipe_create_view (db : DB) (auth_user : Nat) (p : RecipePayload) :
    Except Http Recipe × DB :=
  match RecipeDetailSerializer.run_validation p with
  | Except.error e => (Except.error (Http.serverError500 e), db)
  | Except.ok vd =>
    let res := RecipeSerializer.create db auth_user vd
    (Except.ok res.1, res.2)

/-- Modelled from the spec: `recipe/views.py` is not under `src/`.  Per §4.2,
`get_queryset` filters recipes to the authenticated caller, so a detail `get`
on an id outside the caller-filtered queryset raises 404 — never 403. -/
def recipe_detail_view (db : DB) (auth_user : Nat) (rid : Nat) :
    Except Http Recipe :=
  match db.recipes.find? (fun r => r.id == rid && r.user == auth_user) with
  | none => Except.error Http.notFound404
  | some r => Except.ok r

/-- Modelled from the spec: `recipe/views.py` is not under `src/`.  Update
resolves the instance within the caller-filtered queryset (404 when absent,
before any validation), then validates the payload (a nonempty tags list
raises there), and only then calls `RecipeSerializer.update`; an exception
escaping either step is a 500 and leaves the database unchanged. -/
def recipe_update_view (db : DB) (auth_user : Nat) (rid : Nat)
    (p : RecipePayload) : Except Http Recipe × DB :=
  match db.recipes.find? (fun r => r.id == rid && r.user == auth_user) with
  | none => (Except.error Http.notFound404, db)
  | some inst =>
    match RecipeDetailSerializer.run_validation p with
    | Except.error e => (Except.error (Http.serverError500 e), db)
    | Except.ok vd =>
      match RecipeSerializer.update db auth_user inst.id vd with
      | Except.error e => (Except.error (Http.serverError500 e), db)
      | Except.ok (r, db') => (Except.ok r, db')

/-- Modelled from the spec: `recipe/views.py` is not under `src/`.  Delete
resolves the instance within the caller-filtered queryset; when absent the
response is 404 and nothing is deleted. -/
def recipe_delete_view (db : DB) (auth_user : Nat) (rid : Nat) :
    Except Http Unit × DB :=
  match db.recipes.find? (fun r => r.id == rid && r.user == auth_user) with
  | none => (Except.error Http.notFound404, db)
  | some inst =>
    (Except.ok (),
     { db with recipes := db.recipes.filter (fun r => r.id != inst.id) })

/-- Modelled from the spec: `recipe/views.py` (TagViewSet.get_queryset) is
not under `src/`.  Per §4.3, the queryset the tag list endpoint computes:
the caller's own tags, restricted to tags linked to at least one recipe owned
by the caller when the `assigned_only` flag is truthy, ordered by descending
name, distinct. -/
def tag_list_queryset (db : DB) (auth_user : Nat) (assigned_only : Bool) :
    List Tag :=
  let base := db.tags.filter (fun t => t.user == auth_user)
  let qs :=
    if assigned_only then
      base.filter (fun t =>
        db.recipes.any (fun r => r.user == auth_user && r.tags.contains t.id))
    else base
  List.insertionSort (fun a b => b.name ≤ a.name) qs

/-- The tag list response: each queryset row is rendered through src's
`TagSerializer`, whose field set cannot be built (`Meta` spells `field`
instead of `fields`), so rendering raises on the first row — a nonempty
listing is a 500; only the empty listing renders, as `[]`. -/
def tag_list_view (db : DB) (auth_user : Nat) (assigned_only : Bool) :
    Except PyError (List Tag) :=
  match tag_list_queryset db auth_user assigned_only with
  | [] => Except.ok []
  | _ :: _ => Except.error tagSerializerFieldsError

/-- Modelled from the spec: both `recipe/views.py` (IngredientViewSet) and
the ingredient serializer are absent from `src/` (the tests import
`serializers.IngredientSerializer`, which `recipe/serializers.py` never
defines), so the whole ingredient listing pipeline follows §4.3's words —
unlike the tag pipeline, whose serializer is present in src and broken. -/
def ingredient_list_view (db : DB) (auth_user : Nat) (assigned_only : Bool) :
    List Ingredient :=
  let base := db.ingredients.filter (fun t => t.user == auth_user)
  let qs :=
    if assigned_only then
      base.filter (fun t =>
        db.recipes.any (fun r =>
          r.user == auth_user && r.ingredients.contains t.id))
    else base
  List.insertionSort (fun a b => b.name ≤ a.name) qs

/-- Modelled from the spec: `user/serializers.py` is not under `src/`.  Per
§4.4 the user serializer exposes email and names; the password is write-only
and is never part of a serialized representation. -/
def user_serialize (u : User) : List (String × String) :=
  [("id", toString u.id), ("email", u.email)]

/-- The response of the token endpoint (`user/views.py`, modelled). -/
structure TokenResponse where
  status : Nat
  token : Option String
  detail : Option String
deriving DecidableEq

/-- The opaque session token bound to a user account. -/
def token_for (uid : Nat) : String :=
  "token-" ++ toString uid

/-- The uniform credential error of the token endpoint: one fixed 400 response
used for every failure, revealing nothing about which field was wrong. -/
def uniform_credential_error : TokenResponse :=
  { status := 400, token := none
    detail := some "Unable to authenticate with provided credentials" }

/-- Modelled from the spec: `user/views.py` / `user/serializers.py`
(AuthTokenView and its serializer) are not under `src/`.  Per §4.4 and §6: a
blank email or blank password is rejected without an authentication attempt;
otherwise the credentials are verified against the stored hash; every failure
returns the same 400 body with no token; success returns 200 with a token
bound to the authenticated user. -/
def create_token (db : DB) (email pw : String) : TokenResponse :=
  if email = "" ∨ pw = "" then uniform_credential_error
  else
    match db.users.find? (fun u =>
        u.email == email && check_password pw u.password) with
    | none => uniform_credential_error
    | some u => { status := 200, token := some (token_for u.id), detail := none }

/-- A recipe write operation issued through the API by one caller. -/
inductive Op where
  | createOp (p : RecipePayload)
  | updateOp (rid : Nat) (p : RecipePayload)
deriving DecidableEq

/-- Run one write operation of `auth_user` against the store (the database
state after the request, whatever the response was). -/
def applyOp (auth_user : Nat) (db : DB) : Op → DB
  | Op.createOp p => (recipe_create_view db auth_user p).2
  | Op.updateOp rid p => (recipe_update_view db auth_user rid p).2

/-- Run a sequence of write operations of one caller. -/
def applyOps (auth_user : Nat) (db : DB) (ops : List Op) : DB :=
  ops.foldl (applyOp auth_user) db

/-- Every tag row's id is below the tag id sequence. -/
def tag_ids_bounded (db : DB) : Prop :=
  ∀ t ∈ db.tags, t.id < db.next_tag_id

/-- Every recipe row's id is below the recipe id sequence. -/
def recipe_ids_bounded (db : DB) : Prop :=
  ∀ r ∈ db.recipes, r.id < db.next_recipe_id

/-- Every tag id linked by a recipe is below the tag id sequence. -/
def tag_links_bounded (db : DB) : Prop :=
  ∀ r ∈ db.recipes, ∀ lid ∈ r.tags, lid < db.next_tag_id

/-- Every tag linked to a recipe has the same owner as the recipe. -/
def linked_tags_owned (db : DB) : Prop :=
  ∀ r ∈ db.recipes, ∀ t ∈ db.tags, t.id ∈ r.tags → t.user = r.user

/-- No two tag rows share a primary key. -/
def tag_ids_nodup (db : DB) : Prop :=
  (db.tags.map Tag.id).Nodup

/-- The well-formedness invariant of the store that the reconciliation
theorems maintain. -/
def DB.WF (db : DB) : Prop :=
  tag_ids_bounded db ∧ tag_ids_nodup db ∧ recipe_ids_bounded db ∧
    tag_links_bounded db ∧ linked_tags_owned db

instance (db : DB) : Decidable db.WF := by
  unfold DB.WF tag_ids_bounded tag_ids_nodup recipe_ids_bounded
    tag_links_bounded linked_tags_owned
  infer_instance

/-- The names of the tags owned by `u`, in table order. -/
def user_tag_names (db : DB) (u : Nat) : List String :=
  (db.tags.filter (fun t => t.user == u)).map Tag.name

/-- How many tag rows `u` owns. -/
def user_tag_count (db : DB) (u : Nat) : Nat :=
  (db.tags.filter (fun t => t.user == u)).length

/-- How many tag rows `u` owns with the exact name `n`. -/
def count_tags_named (db : DB) (u : Nat) (n : String) : Nat :=
  (db.tags.filter (fun t => t.user == u && t.name == n)).length

/-- The names owned after reconciling a list of requested names against an
existing name list: a requested name already present is reused, a new one is
appended (first occurrence wins). -/
def add_names (existing : List String) : List String → List String
  | [] => existing
  | n :: rest =>
    if n ∈ existing then add_names existing rest
    else add_names (existing ++ [n]) rest

/-- A concrete store mirroring the fixtures of `test_recipe_api.py`: user 1
owns tag 10 ("Lunch") and recipe 20, which links tag 10; user 2 owns
nothing. -/
def db_fixture : DB :=
  { users :=
      [{ id := 1, email := "test@example.com"
         password := PasswordHash.hashed "testpass1234" },
       { id := 2, email := "other@example.com"
         password := PasswordHash.hashed "otherpass123" }]
    tags := [{ id := 10, name := "Lunch", user := 1 }]
    ingredients := []
    recipes :=
      [{ id := 20, user := 1, title := "sample recipe name"
         description := "sample recipe description", price := 589
         duration := 20, tags := [10], ingredients := [] }]
    next_user_id := 3, next_tag_id := 11, next_recipe_id := 21 }

/-- The `test_clear_tag_recipe` payload: `{"tags": []}`. -/
def payload_clear_tags : RecipePayload :=
  { tags := some [] }

/-- The `test_update_user_returns_error` payload: `{"user": new_user.id}`. -/
def payload_user_change : RecipePayload :=
  { user := some 2 }

/-- The `test_create_recipe_with_new_ingredient` payload (price in cents). -/
def payload_new_ingredients : RecipePayload :=
  { title := some "Test title", description := some "Test descriptin"
    price := some 2222, duration := some 10
    ingredients := some [{ name := "Test Ingredient1" },
                         { name := "Test Ingredient2" }] }

/-- A create payload carrying two tag descriptors
(`test_create_new_recipe_with_tag`). -/
def payload_two_tags : RecipePayload :=
  { title := some "Sample Recipe", description := some "Sample Recipe Description"
    price := some 1044, duration := some 10
    tags := some [{ name := "BreakFast" }, { name := "Lunch" }] }

/-- The spec §8 example payload: `{title:"T", duration:5, price:"1.00",
tags:[{name:"Lunch"}]}`. -/
def payload_lunch : RecipePayload :=
  { title := some "T", price := some 100, duration := some 5
    tags := some [{ name := "Lunch" }] }

/-- The fixture store extended with two ingredient rows owned by user 1
(mirroring `test_ingredient_api.py`). -/
def db_ing_fixture : DB :=
  { db_fixture with
      ingredients := [{ id := 30, name := "Ingredient1", user := 1 },
                      { id := 31, name := "Ingredient2", user := 1 }] }

instance : IsTotal Tag (fun a b => b.name ≤ a.name) :=
  ⟨fun a b => le_total b.name a.name⟩

instance : IsTrans Tag (fun a b => b.name ≤ a.name) :=
  ⟨fun _ _ _ hab hbc => le_trans hbc hab⟩

instance : IsTotal Ingredient (fun a b => b.name ≤ a.name) :=
  ⟨fun a b => le_total b.name a.name⟩

instance : IsTrans Ingredient (fun a b => b.name ≤ a.name) :=
  ⟨fun _ _ _ hab hbc => le_trans hbc hab⟩

/-- `get_or_create` returns a tag owned by the caller bearing the requested
name, and the tag is in the resulting table. -/
lemma get_or_create_spec (db : DB) (u : Nat) (n : String) :
    (Tag.get_or_create db u n).1.user = u ∧
      (Tag.get_or_create db u n).1.name = n ∧
      (Tag.get_or_create db u n).1 ∈ (Tag.get_or_create db u n).2.tags := by
  unfold Tag.get_or_create
  cases h : db.tags.find? (fun t => t.user == u && t.name == n) with
  | none => simp
  | some t =>
    have hp := List.find?_some h
    have hm := List.mem_of_find?_eq_some h
    simp only [Bool.and_eq_true, beq_iff_eq] at hp
    simp [hp.1, hp.2, hm]

lemma m2m_add_mem {links : List Nat} {x lid : Nat} (h : x ∈ m2m_add links lid) :
    x ∈ links ∨ x = lid := by
  unfold m2m_add at h
  split at h
  · exact Or.inl h
  · rcases List.mem_append.mp h with h1 | h1
    · exact Or.inl h1
    · exact Or.inr (List.mem_singleton.mp h1)

lemma m2m_add_mem_of_mem {links : List Nat} {x : Nat} (lid : Nat)
    (h : x ∈ links) : x ∈ m2m_add links lid := by
  unfold m2m_add
  split
  · exact h
  · exact List.mem_append.mpr (Or.inl h)

lemma m2m_add_self (links : List Nat) (lid : Nat) : lid ∈ m2m_add links lid := by
  unfold m2m_add
  split
  · assumption
  · exact List.mem_append.mpr (Or.inr (List.mem_singleton.mpr rfl))

@[simp]
lemma updateRecipe_users (db : DB) (rid : Nat) (f : Recipe → Recipe) :
    (db.updateRecipe rid f).users = db.users := rfl

@[simp]
lemma updateRecipe_tags (db : DB) (rid : Nat) (f : Recipe → Recipe) :
    (db.updateRecipe rid f).tags = db.tags := rfl

@[simp]
lemma updateRecipe_ingredients (db : DB) (rid : Nat) (f : Recipe → Recipe) :
    (db.updateRecipe rid f).ingredients = db.ingredients := rfl

@[simp]
lemma updateRecipe_next_tag_id (db : DB) (rid : Nat) (f : Recipe → Recipe) :
    (db.updateRecipe rid f).next_tag_id = db.next_tag_id := rfl

@[simp]
lemma updateRecipe_next_recipe_id (db : DB) (rid : Nat) (f : Recipe → Recipe) :
    (db.updateRecipe rid f).next_recipe_id = db.next_recipe_id := rfl

@[simp]
lemma updateRecipe_recipes (db : DB) (rid : Nat) (f : Recipe → Recipe) :
    (db.updateRecipe rid f).recipes =
      db.recipes.map (fun r => if r.id == rid then f r else r) := rfl

/-- `get_or_create` either leaves the tag table unchanged (the row existed) or
appends exactly one new row owned by the caller. -/
lemma get_or_create_tags_table (db : DB) (u : Nat) (n : String) :
    (Tag.get_or_create db u n).2.tags = db.tags ∨
      (Tag.get_or_create db u n).2.tags =
        db.tags ++ [(Tag.get_or_create db u n).1] ∧
        (Tag.get_or_create db u n).1.user = u := by
  unfold Tag.get_or_create
  cases h : db.tags.find? (fun t => t.user == u && t.name == n) with
  | none => simp
  | some t => simp

@[simp]
lemma get_or_create_users (db : DB) (u : Nat) (n : String) :
    (Tag.get_or_create db u n).2.users = db.users := by
  unfold Tag.get_or_create
  cases h : db.tags.find? (fun t => t.user == u && t.name == n) <;> simp

@[simp]
lemma get_or_create_ingredients (db : DB) (u : Nat) (n : String) :
    (Tag.get_or_create db u n).2.ingredients = db.ingredients := by
  unfold Tag.get_or_create
  cases h : db.tags.find? (fun t => t.user == u && t.name == n) <;> simp

@[simp]
lemma get_or_create_recipes (db : DB) (u : Nat) (n : String) :
    (Tag.get_or_create db u n).2.recipes = db.recipes := by
  unfold Tag.get_or_create
  cases h : db.tags.find? (fun t => t.user == u && t.name == n) <;> simp

@[simp]
lemma get_or_create_next_recipe_id (db : DB) (u : Nat) (n : String) :
    (Tag.get_or_create db u n).2.next_recipe_id = db.next_recipe_id := by
  unfold Tag.get_or_create
  cases h : db.tags.find? (fun t => t.user == u && t.name == n) <;> simp

/-- Case analysis on `get_or_create`: either the row existed (table and id
sequence untouched, result owned by the caller with the requested name and
already in the table) or a fresh row with primary key `next_tag_id` was
appended. -/
lemma get_or_create_cases (db : DB) (u : Nat) (n : String) :
    ((Tag.get_or_create db u n).2.next_tag_id = db.next_tag_id ∧
      (Tag.get_or_create db u n).2.tags = db.tags ∧
      (Tag.get_or_create db u n).1 ∈ db.tags) ∨
    ((Tag.get_or_create db u n).2.next_tag_id = db.next_tag_id + 1 ∧
      (Tag.get_or_create db u n).2.tags = db.tags ++ [(Tag.get_or_create db u n).1] ∧
      (Tag.get_or_create db u n).1.id = db.next_tag_id) := by
  unfold Tag.get_or_create
  cases h : db.tags.find? (fun t => t.user == u && t.name == n) with
  | none => right; simp
  | some t => left; simp [List.mem_of_find?_eq_some h]

lemma get_or_create_user (db : DB) (u : Nat) (n : String) :
    (Tag.get_or_create db u n).1.user = u :=
  (get_or_create_spec db u n).1

/-- Any tag in the table sharing its id with the `get_or_create` result is the
result itself, provided tag ids are unique and bounded by the sequence; in
particular it is owned by the caller. -/
lemma get_or_create_id_owner (db : DB) (u : Nat) (n : String)
    (H1 : tag_ids_bounded db) (HN : tag_ids_nodup db) :
    ∀ t ∈ (Tag.get_or_create db u n).2.tags,
      t.id = (Tag.get_or_create db u n).1.id → t.user = u := by
  intro t ht hid
  have HN' : (db.tags.map Tag.id).Nodup := HN
  rcases get_or_create_cases db u n with ⟨_, htab, hmem⟩ | ⟨_, htab, hfresh⟩
  · rw [htab] at ht
    have : t = (Tag.get_or_create db u n).1 :=
      List.inj_on_of_nodup_map HN' ht hmem hid
    rw [this]
    exact get_or_create_user db u n
  · rw [htab] at ht
    rcases List.mem_append.mp ht with h1 | h1
    · exact absurd (hfresh ▸ hid ▸ H1 t h1) (lt_irrefl _)
    · rw [List.mem_singleton.mp h1]
      exact get_or_create_user db u n

lemma get_or_create_id_lt (db : DB) (u : Nat) (n : String)
    (H1 : tag_ids_bounded db) :
    (Tag.get_or_create db u n).1.id < (Tag.get_or_create db u n).2.next_tag_id := by
  rcases get_or_create_cases db u n with ⟨hn, _, hmem⟩ | ⟨hn, _, hfresh⟩
  · rw [hn]; exact H1 _ hmem
  · rw [hn, hfresh]; exact Nat.lt_succ_self _

lemma get_or_create_preserves_bounded (db : DB) (u : Nat) (n : String)
    (H1 : tag_ids_bounded db) :
    tag_ids_bounded (Tag.get_or_create db u n).2 := by
  intro t ht
  rcases get_or_create_cases db u n with ⟨hn, htab, _⟩ | ⟨hn, htab, hfresh⟩
  · rw [htab] at ht; rw [hn]; exact H1 t ht
  · rw [htab] at ht; rw [hn]
    rcases List.mem_append.mp ht with h1 | h1
    · exact Nat.lt_succ_of_lt (H1 t h1)
    · rw [List.mem_singleton.mp h1, hfresh]
      exact Nat.lt_succ_self _

lemma get_or_create_preserves_nodup (db : DB) (u : Nat) (n : String)
    (H1 : tag_ids_bounded db) (HN : tag_ids_nodup db) :
    tag_ids_nodup (Tag.get_or_create db u n).2 := by
  have HN' : (db.tags.map Tag.id).Nodup := HN
  show ((Tag.get_or_create db u n).2.tags.map Tag.id).Nodup
  rcases get_or_create_cases db u n with ⟨_, htab, _⟩ | ⟨_, htab, hfresh⟩
  · rw [htab]; exact HN'
  · rw [htab, List.map_append]
    refine List.Nodup.append HN' (List.nodup_singleton _) ?_
    have : ((Tag.get_or_create db u n).1.id) ∉ db.tags.map Tag.id := by
      intro hmem
      obtain ⟨t, ht, hid⟩ := List.mem_map.mp hmem
      have := H1 t ht
      rw [hid, hfresh] at this
      exact absurd this (lt_irrefl _)
    simpa [List.disjoint_singleton] using this

lemma get_or_create_preserves_links_bounded (db : DB) (u : Nat) (n : String)
    (H2 : tag_links_bounded db) :
    tag_links_bounded (Tag.get_or_create db u n).2 := by
  intro r hr l hl
  rw [get_or_create_recipes] at hr
  rcases get_or_create_cases db u n with ⟨hn, _, _⟩ | ⟨hn, _, _⟩
  · rw [hn]; exact H2 r hr l hl
  · rw [hn]; exact Nat.lt_succ_of_lt (H2 r hr l hl)

lemma get_or_create_preserves_linked_owned (db : DB) (u : Nat) (n : String)
    (H2 : tag_links_bounded db) (H3 : linked_tags_owned db) :
    linked_tags_owned (Tag.get_or_create db u n).2 := by
  intro r hr t ht hl
  rw [get_or_create_recipes] at hr
  rcases get_or_create_cases db u n with ⟨_, htab, _⟩ | ⟨_, htab, hfresh⟩
  · rw [htab] at ht; exact H3 r hr t ht hl
  · rw [htab] at ht
    rcases List.mem_append.mp ht with h1 | h1
    · exact H3 r hr t h1 hl
    · have := H2 r hr t.id hl
      rw [List.mem_singleton.mp h1, hfresh] at this
      exact absurd this (lt_irrefl _)

lemma gct_users (u rid : Nat) (ds : List LabelData) : ∀ db : DB,
    (RecipeSerializer._get_or_create_tags db u ds rid).users = db.users := by
  induction ds with
  | nil => intro db; rfl
  | cons d rest ih =>
    intro db
    simp only [RecipeSerializer._get_or_create_tags]
    rw [ih]
    simp

lemma gct_ingredients (u rid : Nat) (ds : List LabelData) : ∀ db : DB,
    (RecipeSerializer._get_or_create_tags db u ds rid).ingredients =
      db.ingredients := by
  induction ds with
  | nil => intro db; rfl
  | cons d rest ih =>
    intro db
    simp only [RecipeSerializer._get_or_create_tags]
    rw [ih]
    simp

lemma gct_next_recipe_id (u rid : Nat) (ds : List LabelData) : ∀ db : DB,
    (RecipeSerializer._get_or_create_tags db u ds rid).next_recipe_id =
      db.next_recipe_id := by
  induction ds with
  | nil => intro db; rfl
  | cons d rest ih =>
    intro db
    simp only [RecipeSerializer._get_or_create_tags]
    rw [ih]
    simp

/-- Reconciliation only ever appends to the tag table, and every appended row
is owned by the reconciling caller. -/
lemma gct_tags_append (u rid : Nat) (ds : List LabelData) : ∀ db : DB,
    ∃ ts : List Tag,
      (RecipeSerializer._get_or_create_tags db u ds rid).tags = db.tags ++ ts ∧
        ∀ t ∈ ts, t.user = u := by
  induction ds with
  | nil =>
    intro db
    exact ⟨[], by simp [RecipeSerializer._get_or_create_tags], by simp⟩
  | cons d rest ih =>
    intro db
    simp only [RecipeSerializer._get_or_create_tags]
    obtain ⟨ts, hts, hown⟩ :=
      ih ((Tag.get_or_create db u d.name).2.updateRecipe rid
        (fun r => { r with tags := m2m_add r.tags (Tag.get_or_create db u d.name).1.id }))
    rw [updateRecipe_tags] at hts
    rcases get_or_create_tags_table db u d.name with h | ⟨h, hu⟩
    · refine ⟨ts, ?_, hown⟩
      rw [hts, h]
    · refine ⟨(Tag.get_or_create db u d.name).1 :: ts, ?_, ?_⟩
      · rw [hts, h, List.append_assoc]
        rfl
      · intro t ht
        rcases List.mem_cons.mp ht with h1 | h1
        · rw [h1]; exact hu
        · exact hown t h1

/-- Reconciliation changes no recipe's id, owner, or ingredient links, and
drops no recipe. -/
lemma gct_recipes_shape (u rid : Nat) (ds : List LabelData) : ∀ db : DB,
    ((RecipeSerializer._get_or_create_tags db u ds rid).recipes).map
        (fun r => (r.id, r.user, r.ingredients)) =
      db.recipes.map (fun r => (r.id, r.user, r.ingredients)) := by
  induction ds with
  | nil => intro db; rfl
  | cons d rest ih =>
    intro db
    simp only [RecipeSerializer._get_or_create_tags]
    rw [ih]
    simp only [updateRecipe_recipes, get_or_create_recipes, List.map_map]
    congr 1
    funext r
    simp only [Function.comp]
    split <;> rfl




lemma updateRecipe_preserves_bounded (db : DB) (rid : Nat) (f : Recipe → Recipe)
    (H : tag_ids_bounded db) : tag_ids_bounded (db.updateRecipe rid f) := by
  intro t ht
  rw [updateRecipe_tags] at ht
  rw [updateRecipe_next_tag_id]
  exact H t ht

lemma updateRecipe_preserves_nodup (db : DB) (rid : Nat) (f : Recipe → Recipe)
    (H : tag_ids_nodup db) : tag_ids_nodup (db.updateRecipe rid f) := H

lemma link_preserves_links_bounded (db : DB) (rid lid : Nat)
    (H2 : tag_links_bounded db) (hlt : lid < db.next_tag_id) :
    tag_links_bounded (db.updateRecipe rid
      (fun r => { r with tags := m2m_add r.tags lid })) := by
  intro r hr l hl
  simp only [updateRecipe_recipes, List.mem_map] at hr
  obtain ⟨r0, hr0, rfl⟩ := hr
  rw [updateRecipe_next_tag_id]
  by_cases hc : (r0.id == rid) = true
  · rw [if_pos hc] at hl
    rcases m2m_add_mem hl with h1 | h1
    · exact H2 r0 hr0 l h1
    · rw [h1]; exact hlt
  · rw [if_neg hc] at hl
    exact H2 r0 hr0 l hl

lemma link_preserves_linked_owned (db : DB) (u rid lid : Nat)
    (H3 : linked_tags_owned db)
    (hown : ∀ t ∈ db.tags, t.id = lid → t.user = u)
    (H4 : ∀ r ∈ db.recipes, r.id = rid → r.user = u) :
    linked_tags_owned (db.updateRecipe rid
      (fun r => { r with tags := m2m_add r.tags lid })) := by
  intro r hr t ht hl
  simp only [updateRecipe_recipes, List.mem_map] at hr
  obtain ⟨r0, hr0, rfl⟩ := hr
  rw [updateRecipe_tags] at ht
  by_cases hc : (r0.id == rid) = true
  · rw [if_pos hc] at hl ⊢
    show t.user = r0.user
    rcases m2m_add_mem hl with h1 | h1
    · exact H3 r0 hr0 t ht h1
    · rw [hown t ht h1, H4 r0 hr0 (beq_iff_eq.mp hc)]
  · rw [if_neg hc] at hl ⊢
    exact H3 r0 hr0 t ht hl

lemma link_preserves_target_owner (db : DB) (u rid lid : Nat)
    (H4 : ∀ r ∈ db.recipes, r.id = rid → r.user = u) :
    ∀ r ∈ (db.updateRecipe rid
        (fun r => { r with tags := m2m_add r.tags lid })).recipes,
      r.id = rid → r.user = u := by
  intro r hr hid
  simp only [updateRecipe_recipes, List.mem_map] at hr
  obtain ⟨r0, hr0, rfl⟩ := hr
  by_cases hc : (r0.id == rid) = true
  · rw [if_pos hc] at hid ⊢
    exact H4 r0 hr0 hid
  · rw [if_neg hc] at hid ⊢
    exact H4 r0 hr0 hid

/-- Reconciliation preserves the store invariants whenever every recipe with
the target id is owned by the reconciling caller. -/
lemma gct_preserves_WF (u rid : Nat) (ds : List LabelData) : ∀ db : DB,
    tag_ids_bounded db → tag_ids_nodup db → tag_links_bounded db →
    linked_tags_owned db →
    (∀ r ∈ db.recipes, r.id = rid → r.user = u) →
    tag_ids_bounded (RecipeSerializer._get_or_create_tags db u ds rid) ∧
      tag_ids_nodup (RecipeSerializer._get_or_create_tags db u ds rid) ∧
      tag_links_bounded (RecipeSerializer._get_or_create_tags db u ds rid) ∧
      linked_tags_owned (RecipeSerializer._get_or_create_tags db u ds rid) := by
  induction ds with
  | nil =>
    intro db h1 hn h2 h3 _
    exact ⟨h1, hn, h2, h3⟩
  | cons d rest ih =>
    intro db h1 hn h2 h3 h4
    simp only [RecipeSerializer._get_or_create_tags]
    have h1a := get_or_create_preserves_bounded db u d.name h1
    have hna := get_or_create_preserves_nodup db u d.name h1 hn
    have h2a := get_or_create_preserves_links_bounded db u d.name h2
    have h3a := get_or_create_preserves_linked_owned db u d.name h2 h3
    have h4a : ∀ r ∈ (Tag.get_or_create db u d.name).2.recipes,
        r.id = rid → r.user = u := by
      rw [get_or_create_recipes]; exact h4
    have hown := get_or_create_id_owner db u d.name h1 hn
    have hlt := get_or_create_id_lt db u d.name h1
    exact ih _
      (updateRecipe_preserves_bounded _ _ _ h1a)
      (updateRecipe_preserves_nodup _ _ _ hna)
      (link_preserves_links_bounded _ _ _ h2a hlt)
      (link_preserves_linked_owned _ u _ _ h3a hown h4a)
      (link_preserves_target_owner _ u _ _ h4a)

@[simp]
lemma user_tag_names_updateRecipe (db : DB) (rid : Nat) (f : Recipe → Recipe)
    (u : Nat) : user_tag_names (db.updateRecipe rid f) u = user_tag_names db u :=
  rfl

lemma mem_user_tag_names (db : DB) (u : Nat) (n : String) :
    n ∈ user_tag_names db u ↔ ∃ t ∈ db.tags, t.user = u ∧ t.name = n := by
  unfold user_tag_names
  simp only [List.mem_map, List.mem_filter, beq_iff_eq]
  constructor
  · rintro ⟨t, ⟨ht, hu⟩, hn⟩
    exact ⟨t, ht, hu, hn⟩
  · rintro ⟨t, ht, hu, hn⟩
    exact ⟨t, ⟨ht, hu⟩, hn⟩

lemma find_tag_none_iff (db : DB) (u : Nat) (n : String) :
    db.tags.find? (fun t => t.user == u && t.name == n) = none ↔
      n ∉ user_tag_names db u := by
  rw [List.find?_eq_none]
  simp only [mem_user_tag_names, Bool.and_eq_true, beq_iff_eq, not_exists,
    not_and]

/-- The effect of reconciliation on the caller's tag-name list: exactly
`add_names` — an existing name is reused, a missing one is appended once. -/
lemma gct_names (u rid : Nat) (ds : List LabelData) : ∀ db : DB,
    user_tag_names (RecipeSerializer._get_or_create_tags db u ds rid) u =
      add_names (user_tag_names db u) (ds.map LabelData.name) := by
  induction ds with
  | nil => intro db; rfl
  | cons d rest ih =>
    intro db
    simp only [RecipeSerializer._get_or_create_tags, List.map_cons]
    cases hf : db.tags.find? (fun t => t.user == u && t.name == d.name) with
    | some t =>
      have hp := List.find?_some hf
      have hm := List.mem_of_find?_eq_some hf
      simp only [Bool.and_eq_true, beq_iff_eq] at hp
      have hmem : d.name ∈ user_tag_names db u :=
        (mem_user_tag_names db u d.name).mpr ⟨t, hm, hp.1, hp.2⟩
      simp only [Tag.get_or_create, hf]
      rw [ih, user_tag_names_updateRecipe]
      conv_rhs => rw [add_names]
      rw [if_pos hmem]
    | none =>
      have hnot : d.name ∉ user_tag_names db u :=
        (find_tag_none_iff db u d.name).mp hf
      simp only [Tag.get_or_create, hf]
      rw [ih, user_tag_names_updateRecipe]
      have hstep :
          user_tag_names
            { db with tags := db.tags ++ [⟨db.next_tag_id, d.name, u⟩]
                      next_tag_id := db.next_tag_id + 1 } u =
            user_tag_names db u ++ [d.name] := by
        unfold user_tag_names
        rw [List.filter_append, List.map_append]
        simp
      rw [hstep]
      conv_rhs => rw [add_names]
      rw [if_neg hnot]

lemma create_view_db_error (db : DB) (u : Nat) (p : RecipePayload)
    (e : PyError) (h : RecipeDetailSerializer.run_validation p =
      Except.error e) :
    (recipe_create_view db u p).2 = db := by
  unfold recipe_create_view
  rw [h]


lemma create_view_db_ok (db : DB) (u : Nat) (p : RecipePayload)
    (vd : ValidatedData) (h : RecipeDetailSerializer.run_validation p =
      Except.ok vd) :
    (recipe_create_view db u p).2 =
      RecipeSerializer._get_or_create_tags
        (insert_recipe db u vd) u (vd.tags.getD [])
        db.next_recipe_id := by
  unfold recipe_create_view
  rw [h]
  rfl


@[simp]
lemma insert_recipe_tags (db : DB) (u : Nat) (vd : ValidatedData) :
    (insert_recipe db u vd).tags = db.tags := rfl

@[simp]
lemma insert_recipe_next_tag_id (db : DB) (u : Nat) (vd : ValidatedData) :
    (insert_recipe db u vd).next_tag_id = db.next_tag_id := rfl

@[simp]
lemma insert_recipe_users (db : DB) (u : Nat) (vd : ValidatedData) :
    (insert_recipe db u vd).users = db.users := rfl

@[simp]
lemma insert_recipe_ingredients (db : DB) (u : Nat) (vd : ValidatedData) :
    (insert_recipe db u vd).ingredients = db.ingredients := rfl

lemma insert_recipe_invariants (db : DB) (u : Nat) (vd : ValidatedData)
    (h : db.WF) :
    (insert_recipe db u vd).WF ∧
      (∀ r ∈ (insert_recipe db u vd).recipes,
        r.id = db.next_recipe_id → r.user = u) := by
  obtain ⟨h1, hn, hrb, h2, h3⟩ := h
  refine ⟨⟨h1, hn, ?_, ?_, ?_⟩, ?_⟩
  · intro r hr
    rcases List.mem_append.mp hr with h0 | h0
    · exact Nat.lt_succ_of_lt (hrb r h0)
    · rw [List.mem_singleton.mp h0]
      exact Nat.lt_succ_self _
  · intro r hr l hl
    rcases List.mem_append.mp hr with h0 | h0
    · exact h2 r h0 l hl
    · rw [List.mem_singleton.mp h0] at hl
      exact absurd hl (List.not_mem_nil l)
  · intro r hr t ht hl
    rcases List.mem_append.mp hr with h0 | h0
    · exact h3 r h0 t ht hl
    · rw [List.mem_singleton.mp h0] at hl
      exact absurd hl (List.not_mem_nil t.id)
  · intro r hr hid
    rcases List.mem_append.mp hr with h0 | h0
    · exact absurd hid (Nat.ne_of_lt (hrb r h0))
    · rw [List.mem_singleton.mp h0]
      rfl

lemma gct_recipe_ids_bounded (u rid : Nat) (ds : List LabelData) (db : DB)
    (h : recipe_ids_bounded db) :
    recipe_ids_bounded (RecipeSerializer._get_or_create_tags db u ds rid) := by
  intro r hr
  rw [gct_next_recipe_id]
  have hmem : (r.id, r.user, r.ingredients) ∈
      ((RecipeSerializer._get_or_create_tags db u ds rid).recipes).map
        (fun r => (r.id, r.user, r.ingredients)) :=
    List.mem_map_of_mem _ hr
  rw [gct_recipes_shape] at hmem
  obtain ⟨r0, hr0, heq⟩ := List.mem_map.mp hmem
  have hid : r0.id = r.id := congrArg (fun x => x.1) heq
  rw [← hid]
  exact h r0 hr0

/-- Reconciliation run after inserting the fresh recipe row preserves the
store invariants, for any validated data. -/
lemma create_path_WF (db : DB) (u : Nat) (vd : ValidatedData) (h : db.WF) :
    (RecipeSerializer._get_or_create_tags
      (insert_recipe db u vd) u (vd.tags.getD []) db.next_recipe_id).WF := by
  obtain ⟨hwf, htarget⟩ := insert_recipe_invariants db u vd h
  obtain ⟨h1, hn, hrb, h2, h3⟩ := hwf
  obtain ⟨g1, gn, g2, g3⟩ :=
    gct_preserves_WF u db.next_recipe_id (vd.tags.getD [])
      (insert_recipe db u vd) h1 hn h2 h3 htarget
  exact ⟨g1, gn, gct_recipe_ids_bounded _ _ _ _ hrb, g2, g3⟩

/-- A recipe-create request preserves the store invariants, whether validation
raised (store untouched) or the create went through. -/
lemma create_view_WF (db : DB) (u : Nat) (p : RecipePayload) (h : db.WF) :
    ((recipe_create_view db u p).2).WF := by
  cases hv : RecipeDetailSerializer.run_validation p with
  | error e =>
    rw [create_view_db_error db u p e hv]
    exact h
  | ok vd =>
    rw [create_view_db_ok db u p vd hv]
    exact create_path_WF db u vd h

/-- The create path leaves every other user's tag rows exactly as they
were, for any validated data. -/
lemma create_path_tags_filter (db : DB) (u : Nat) (vd : ValidatedData)
    (B : Nat) (hB : B ≠ u) :
    (RecipeSerializer._get_or_create_tags
        (insert_recipe db u vd) u (vd.tags.getD [])
        db.next_recipe_id).tags.filter (fun t => t.user == B) =
      db.tags.filter (fun t => t.user == B) := by
  obtain ⟨ts, hts, hown⟩ :=
    gct_tags_append u db.next_recipe_id (vd.tags.getD [])
      (insert_recipe db u vd)
  rw [hts, insert_recipe_tags, List.filter_append]
  have hnil : ts.filter (fun t => t.user == B) = [] := by
    rw [List.filter_eq_nil_iff]
    intro t ht
    simp only [hown t ht, beq_iff_eq]
    exact fun hub => hB hub.symm
  rw [hnil, List.append_nil]

/-- A recipe-create request by `u` leaves every other user's tag rows exactly
as they were. -/
lemma create_view_tags_filter (db : DB) (u : Nat) (p : RecipePayload)
    (B : Nat) (hB : B ≠ u) :
    ((recipe_create_view db u p).2).tags.filter (fun t => t.user == B) =
      db.tags.filter (fun t => t.user == B) := by
  cases hv : RecipeDetailSerializer.run_validation p with
  | error e => rw [create_view_db_error db u p e hv]
  | ok vd =>
    rw [create_view_db_ok db u p vd hv]
    exact create_path_tags_filter db u vd B hB

/-- A recipe-update request never changes the store: an unresolved id is a
404, a nonempty tags payload raises during validation, and otherwise the
serializer's broken `update` raises before any mutation. -/
lemma update_view_db_unchanged (db : DB) (u rid : Nat) (p : RecipePayload) :
    (recipe_update_view db u rid p).2 = db := by
  unfold recipe_update_view
  cases db.recipes.find? (fun r => r.id == rid && r.user == u) with
  | none => rfl
  | some inst =>
    cases RecipeDetailSerializer.run_validation p with
    | error e => rfl
    | ok vd => rfl

lemma add_names_mem (ns : List String) : ∀ (l : List String) (x : String),
    x ∈ add_names l ns ↔ x ∈ l ∨ x ∈ ns := by
  induction ns with
  | nil => intro l x; simp [add_names]
  | cons n rest ih =>
    intro l x
    by_cases h : n ∈ l
    · rw [add_names, if_pos h, ih]
      simp only [List.mem_cons]
      constructor
      · rintro (h1 | h1)
        · exact Or.inl h1
        · exact Or.inr (Or.inr h1)
      · rintro (h1 | h1 | h1)
        · exact Or.inl h1
        · exact Or.inl (h1 ▸ h)
        · exact Or.inr h1
    · rw [add_names, if_neg h, ih]
      simp only [List.mem_append, List.mem_singleton, List.mem_cons]
      tauto

lemma add_names_nodup (ns : List String) : ∀ l : List String,
    l.Nodup → (add_names l ns).Nodup := by
  induction ns with
  | nil => intro l h; exact h
  | cons n rest ih =>
    intro l h
    by_cases hm : n ∈ l
    · rw [add_names, if_pos hm]
      exact ih l h
    · rw [add_names, if_neg hm]
      exact ih (l ++ [n])
        (h.append (List.nodup_singleton n) (List.disjoint_singleton.mpr hm))

lemma add_names_sat (ns : List String) : ∀ l : List String,
    (∀ n ∈ ns, n ∈ l) → add_names l ns = l := by
  induction ns with
  | nil => intro l _; rfl
  | cons n rest ih =>
    intro l h
    rw [add_names, if_pos (h n (List.mem_cons_self n rest))]
    exact ih l (fun m hm => h m (List.mem_cons_of_mem n hm))

lemma add_names_idem (ns l : List String) :
    add_names (add_names l ns) ns = add_names l ns :=
  add_names_sat ns _ (fun n hn => (add_names_mem ns l n).mpr (Or.inr hn))

lemma add_names_nil_length (ns : List String) :
    (add_names [] ns).length = ns.dedup.length := by
  have nd : (add_names [] ns).Nodup := add_names_nodup ns [] List.nodup_nil
  have hfin : (add_names [] ns).toFinset = ns.toFinset := by
    ext x
    simp [List.mem_toFinset, add_names_mem]
  rw [← List.toFinset_card_of_nodup nd, hfin, List.card_toFinset]

lemma user_tag_count_eq (db : DB) (u : Nat) :
    user_tag_count db u = (user_tag_names db u).length := by
  unfold user_tag_count user_tag_names
  rw [List.length_map]

/-- The create path applies `add_names` to the caller's tag-name list, for
any validated data. -/
lemma create_path_names (db : DB) (u : Nat) (vd : ValidatedData) :
    user_tag_names
        (RecipeSerializer._get_or_create_tags (insert_recipe db u vd) u
          (vd.tags.getD []) db.next_recipe_id) u =
      add_names (user_tag_names db u)
        ((vd.tags.getD []).map LabelData.name) := by
  rw [gct_names]
  rfl

/-- Reconciliation never yields a second tag row for a (owner, name) pair that
already has one. -/
lemma gct_count_named (u rid : Nat) (ds : List LabelData) :
    ∀ (db : DB) (n : String),
    (∃ t ∈ db.tags, t.user = u ∧ t.name = n) →
    count_tags_named (RecipeSerializer._get_or_create_tags db u ds rid) u n =
      count_tags_named db u n := by
  induction ds with
  | nil => intro db n _; rfl
  | cons d rest ih =>
    intro db n hex
    simp only [RecipeSerializer._get_or_create_tags]
    cases hf : db.tags.find? (fun t => t.user == u && t.name == d.name) with
    | some t =>
      simp only [Tag.get_or_create, hf]
      refine Eq.trans (ih _ n ?_) ?_
      · exact hex
      · rfl
    | none =>
      have hne : d.name ≠ n := by
        intro hcontra
        obtain ⟨t, ht, hu, hn⟩ := hex
        rw [List.find?_eq_none] at hf
        exact hf t ht (by simp [hu, hn, hcontra])
      simp only [Tag.get_or_create, hf]
      refine Eq.trans (ih _ n ?_) ?_
      · obtain ⟨t, ht, hrest⟩ := hex
        exact ⟨t, List.mem_append.mpr (Or.inl ht), hrest⟩
      · show count_tags_named
          { db with tags := db.tags ++ [⟨db.next_tag_id, d.name, u⟩]
                    next_tag_id := db.next_tag_id + 1 } u n =
            count_tags_named db u n
        unfold count_tags_named
        rw [List.filter_append]
        have hnil : List.filter (fun t => t.user == u && t.name == n)
            ([⟨db.next_tag_id, d.name, u⟩] : List Tag) = [] := by
          simp [hne]
        rw [hnil, List.append_nil]

/-- C1: the claim says an update whose payload carries a `tags` list (even the
empty list) clears the recipe's tag links and reconciles the supplied list,
that omitting the key leaves links untouched, and that the update completes.
The code disagrees: `RecipeSerializer.update` raises `TypeError` on every
invocation — its first statement `validated_data.pop['tags', None]` subscripts
the bound method `pop` instead of calling it — so no update ever completes.
Concretely, the `test_clear_tag_recipe` scenario (PATCH `{"tags": []}` on
recipe 20, which links tag 10) yields a 500 server error, the store is
untouched, and the recipe keeps its tag link. -/
theorem claim_C1_update_always_raises :
    (∀ (db : DB) (u rid : Nat) (vd : ValidatedData),
      RecipeSerializer.update db u rid vd =
        Except.error (PyError.typeError
          "builtin_function_or_method object is not subscriptable")) ∧
    (recipe_update_view db_fixture 1 20 payload_clear_tags).1 =
      Except.error (Http.serverError500 (PyError.typeError
        "builtin_function_or_method object is not subscriptable")) ∧
    (recipe_update_view db_fixture 1 20 payload_clear_tags).2 = db_fixture ∧
    (db_fixture.findRecipe 20).map Recipe.tags = some [10] :=
  ⟨fun _ _ _ _ => rfl, rfl, by decide, by decide⟩

/-- C5: the claim says an update payload carrying a `user` field is accepted
by validation, the field is discarded, and the update completes silently with
the owner unchanged.  Validation does discard the field (first conjunct: the
validated data of any payload is identical to that of the payload with `user`
removed), and the stored owner indeed never changes — but only because every
update request leaves the store untouched: the broken serializer raises, so
the response is a 500 server error rather than a silent success (last
conjuncts, at the `test_update_user_returns_error` input). -/
theorem claim_C5_owner_immutable :
    (∀ p : RecipePayload,
      RecipeDetailSerializer.run_validation p =
        RecipeDetailSerializer.run_validation { p with user := none }) ∧
    (∀ (db : DB) (u rid : Nat) (p : RecipePayload),
      (recipe_update_view db u rid p).2 = db) ∧
    (recipe_update_view db_fixture 1 20 payload_user_change).2 = db_fixture ∧
    (db_fixture.findRecipe 20).map Recipe.user = some 1 ∧
    (recipe_update_view db_fixture 1 20 payload_user_change).1 =
      Except.error (Http.serverError500 (PyError.typeError
        "builtin_function_or_method object is not subscriptable")) :=
  ⟨fun _ => rfl, fun db u rid p => update_view_db_unchanged db u rid p,
    by decide, by decide, rfl⟩

/-- C2: the claim says nested label descriptors are get-or-create-reconciled
on recipe create, for both tags and ingredients.  Both halves fail on the
code.  Ingredients: the serializer declares no `ingredients` field, so
validation drops the key — every create request leaves the ingredient table
exactly as it was (first conjunct), and the
`test_create_recipe_with_new_ingredient` payload yields a 201 recipe with
zero ingredient links (second and third conjuncts) where the test expects
two.  Tags: `TagSerializer.Meta` spells `field` instead of `fields`, so
validating any nonempty tags list raises while building the nested
serializer's field set — the `test_create_new_recipe_with_tag` style payload
answers 500 and creates neither a recipe nor a tag row (last two
conjuncts), where the tests expect 201 with both descriptors reconciled. -/
theorem claim_C2_create_reconciliation :
    (∀ (db : DB) (u : Nat) (p : RecipePayload),
      ((recipe_create_view db u p).2).ingredients = db.ingredients) ∧
    (recipe_create_view db_fixture 1 payload_new_ingredients).1 =
      Except.ok { id := 21, user := 1, title := "Test title"
                  description := "Test descriptin", price := 2222
                  duration := 10, tags := [], ingredients := [] } ∧
    ((recipe_create_view db_fixture 1 payload_new_ingredients).2).ingredients
      = [] ∧
    (recipe_create_view db_fixture 1 payload_two_tags).1 =
      Except.error (Http.serverError500 tagSerializerFieldsError) ∧
    (recipe_create_view db_fixture 1 payload_two_tags).2 = db_fixture := by
  refine ⟨?_, rfl, by decide, rfl, rfl⟩
  intro db u p
  cases hv : RecipeDetailSerializer.run_validation p with
  | error e => rw [create_view_db_error db u p e hv]
  | ok vd =>
    rw [create_view_db_ok db u p vd hv, gct_ingredients,
      insert_recipe_ingredients]

lemma applyOp_WF (u : Nat) (db : DB) (op : Op) (h : db.WF) :
    (applyOp u db op).WF := by
  cases op with
  | createOp p => exact create_view_WF db u p h
  | updateOp rid p =>
    show ((recipe_update_view db u rid p).2).WF
    rw [update_view_db_unchanged]
    exact h

lemma applyOp_tags_filter (u : Nat) (db : DB) (op : Op) (B : Nat)
    (hB : B ≠ u) :
    (applyOp u db op).tags.filter (fun t => t.user == B) =
      db.tags.filter (fun t => t.user == B) := by
  cases op with
  | createOp p => exact create_view_tags_filter db u p B hB
  | updateOp rid p =>
    show ((recipe_update_view db u rid p).2).tags.filter _ = _
    rw [update_view_db_unchanged]

/-- C3: reconciliation is owner-scoped.  For any well-formed store and any
sequence of recipe create/update requests issued by caller `A`, the tag rows
of every other user `B` are left exactly as they were, and afterwards every
tag linked to any recipe is owned by that recipe's owner (first pair of
conjuncts).  The same two properties hold of the reconciliation component
`_get_or_create_tags` itself, run directly on any descriptor list against a
recipe id the caller owns (second pair): every lookup and creation it
performs is scoped to `user=auth_user`, so `B`'s namespace is never read,
extended, or linked. -/
theorem claim_C3_owner_scoping (db : DB) (A B : Nat) (ops : List Op)
    (hAB : B ≠ A) (hwf : db.WF) :
    ((applyOps A db ops).tags.filter (fun t => t.user == B) =
        db.tags.filter (fun t => t.user == B) ∧
      linked_tags_owned (applyOps A db ops)) ∧
    (∀ (ds : List LabelData) (rid : Nat),
      (∀ r ∈ db.recipes, r.id = rid → r.user = A) →
      (RecipeSerializer._get_or_create_tags db A ds rid).tags.filter
          (fun t => t.user == B) =
        db.tags.filter (fun t => t.user == B) ∧
      linked_tags_owned (RecipeSerializer._get_or_create_tags db A ds rid)) := by
  constructor
  · induction ops generalizing db with
    | nil => exact ⟨rfl, hwf.2.2.2.2⟩
    | cons op rest ih =>
      obtain ⟨hf, hl⟩ := ih (applyOp A db op) (applyOp_WF A db op hwf)
      exact ⟨hf.trans (applyOp_tags_filter A db op B hAB), hl⟩
  · intro ds rid htarget
    constructor
    · obtain ⟨ts, hts, hown⟩ := gct_tags_append A rid ds db
      rw [hts, List.filter_append]
      have hnil : ts.filter (fun t => t.user == B) = [] := by
        rw [List.filter_eq_nil_iff]
        intro t ht
        simp only [hown t ht, beq_iff_eq]
        exact fun hub => hAB hub.symm
      rw [hnil, List.append_nil]
    · obtain ⟨h1, hn, hrb, h2, h3⟩ := hwf
      exact (gct_preserves_WF A rid ds db h1 hn h2 h3 htarget).2.2.2

/-- Witness for C3 at a concrete store, operation sequence, and direct
component run. -/
theorem claim_C3_witness :
    ((applyOps 1 db_fixture
        [Op.createOp payload_two_tags,
         Op.updateOp 20 payload_clear_tags]).tags.filter
        (fun t => t.user == 2) =
      db_fixture.tags.filter (fun t => t.user == 2) ∧
    linked_tags_owned (applyOps 1 db_fixture
      [Op.createOp payload_two_tags, Op.updateOp 20 payload_clear_tags])) ∧
    ((RecipeSerializer._get_or_create_tags db_fixture 1
        [{ name := "BreakFast" }] 20).tags.filter (fun t => t.user == 2) =
      db_fixture.tags.filter (fun t => t.user == 2) ∧
    linked_tags_owned (RecipeSerializer._get_or_create_tags db_fixture 1
      [{ name := "BreakFast" }] 20)) :=
  ⟨(claim_C3_owner_scoping db_fixture 1 2
      [Op.createOp payload_two_tags, Op.updateOp 20 payload_clear_tags]
      (by decide) (by decide)).1,
   (claim_C3_owner_scoping db_fixture 1 2
      [Op.createOp payload_two_tags, Op.updateOp 20 payload_clear_tags]
      (by decide) (by decide)).2 [{ name := "BreakFast" }] 20 (by decide)⟩

/-- C4: idempotent reuse.  The reconciliation algorithm itself
(`_get_or_create_tags`) is idempotent-reusing: starting from a caller owning
no tags, running it twice with the same descriptor list leaves the caller's
tag-row count at most the number of distinct submitted names (first
conjunct), and a descriptor whose name the caller already owns never produces
a second row with that name (second conjunct).  But the claim speaks of two
CREATE REQUESTS, and in the program a create request carrying tag descriptors
never reaches the algorithm: nested validation raises on the broken
`TagSerializer` (`Meta` spells `field`, not `fields`), so the spec section 8
example request (`tags: [{name: "Lunch"}]`) answers 500 and creates neither a
recipe nor a tag entity (last two conjuncts), where the repo's own tests
expect 201 and reuse. -/
theorem claim_C4_idempotent_reuse :
    (∀ (db : DB) (A rid rid2 : Nat) (ds : List LabelData),
      user_tag_names db A = [] →
      user_tag_count
          (RecipeSerializer._get_or_create_tags
            (RecipeSerializer._get_or_create_tags db A ds rid) A ds rid2) A ≤
        ((ds.map LabelData.name).dedup).length) ∧
    (∀ (db : DB) (A rid : Nat) (ds : List LabelData) (n : String),
      (∃ t ∈ db.tags, t.user = A ∧ t.name = n) →
      count_tags_named (RecipeSerializer._get_or_create_tags db A ds rid) A n
        = count_tags_named db A n) ∧
    (recipe_create_view db_fixture 2 payload_lunch).1 =
      Except.error (Http.serverError500 tagSerializerFieldsError) ∧
    (recipe_create_view db_fixture 2 payload_lunch).2 = db_fixture := by
  refine ⟨?_, ?_, rfl, rfl⟩
  · intro db A rid rid2 ds h0
    rw [user_tag_count_eq, gct_names, gct_names, h0, add_names_idem,
      add_names_nil_length]
  · intro db A rid ds n hex
    exact gct_count_named A rid ds db n hex

/-- Witness for C4: user 2 owns no tags in the fixture; user 1 already owns a
"Lunch" tag, which a direct reconciliation run with a "Lunch" descriptor
reuses rather than duplicates. -/
theorem claim_C4_witness :
    user_tag_count
        (RecipeSerializer._get_or_create_tags
          (RecipeSerializer._get_or_create_tags db_fixture 2
            [{ name := "BreakFast" }, { name := "Lunch" }] 21) 2
          [{ name := "BreakFast" }, { name := "Lunch" }] 22) 2 ≤ 2 ∧
    count_tags_named
        (RecipeSerializer._get_or_create_tags db_fixture 1
          [{ name := "Lunch" }] 20) 1 "Lunch" =
      count_tags_named db_fixture 1 "Lunch" :=
  ⟨claim_C4_idempotent_reuse.1 db_fixture 2 21 22
      [{ name := "BreakFast" }, { name := "Lunch" }] (by decide),
   claim_C4_idempotent_reuse.2.1 db_fixture 1 20 [{ name := "Lunch" }]
      "Lunch" (by decide)⟩

/-- C6: ownership masking.  When the caller owns no recipe with the addressed
id (in particular when the recipe with that id belongs to someone else),
detail, update and delete all answer 404 not-found — the error type's
`forbidden403` is never produced — and delete leaves the store unchanged with
the recipe still present. -/
theorem claim_C6_not_found_masking (db : DB) (u rid : Nat) (r : Recipe)
    (p : RecipePayload) (hr : r ∈ db.recipes) (hid : r.id = rid)
    (hnotu : ∀ r0 ∈ db.recipes, r0.id = rid → r0.user ≠ u) :
    recipe_detail_view db u rid = Except.error Http.notFound404 ∧
    (recipe_update_view db u rid p).1 = Except.error Http.notFound404 ∧
    (recipe_update_view db u rid p).2 = db ∧
    (recipe_delete_view db u rid).1 = Except.error Http.notFound404 ∧
    (recipe_delete_view db u rid).2 = db ∧
    r ∈ (recipe_delete_view db u rid).2.recipes := by
  have hnone :
      db.recipes.find? (fun r0 => r0.id == rid && r0.user == u) = none := by
    rw [List.find?_eq_none]
    intro r0 h0 hp
    simp only [Bool.and_eq_true, beq_iff_eq] at hp
    exact hnotu r0 h0 hp.1 hp.2
  refine ⟨?_, ?_, ?_, ?_, ?_, ?_⟩
  · unfold recipe_detail_view; rw [hnone]
  · unfold recipe_update_view; rw [hnone]
  · unfold recipe_update_view; rw [hnone]
  · unfold recipe_delete_view; rw [hnone]
  · unfold recipe_delete_view; rw [hnone]
  · unfold recipe_delete_view; rw [hnone]; exact hr

/-- Witness for C6: user 2 addresses recipe 20, owned by user 1. -/
theorem claim_C6_witness :
    recipe_detail_view db_fixture 2 20 = Except.error Http.notFound404 ∧
    (recipe_delete_view db_fixture 2 20).2 = db_fixture :=
  ⟨(claim_C6_not_found_masking db_fixture 2 20
      { id := 20, user := 1, title := "sample recipe name"
        description := "sample recipe description", price := 589
        duration := 20, tags := [10], ingredients := [] }
      payload_clear_tags (by decide) rfl (by decide)).1,
   (claim_C6_not_found_masking db_fixture 2 20
      { id := 20, user := 1, title := "sample recipe name"
        description := "sample recipe description", price := 589
        duration := 20, tags := [10], ingredients := [] }
      payload_clear_tags (by decide) rfl (by decide)).2.2.2.2.1⟩

/-- C7: account creation stores the case-normalized email (Django
normalization: domain part lowercased) with the password as a one-way hash
(first conjunct gives the full result row); the unique email column keeps
stored emails distinct (second conjunct) and rejects a duplicate outright
(fourth conjunct); and no serialized user representation carries a password
key (third conjunct). -/
theorem claim_C7_email_normalization (db : DB) (email pw : String)
    (h1 : email ≠ "")
    (h2 : db.users.any (fun v => v.email == normalize_email email) = false) :
    UserManager.create_user db email pw =
      Except.ok
        ({ id := db.next_user_id, email := normalize_email email
           password := PasswordHash.hashed pw },
         { db with
             users := db.users ++
               [{ id := db.next_user_id, email := normalize_email email
                  password := PasswordHash.hashed pw }]
             next_user_id := db.next_user_id + 1 }) ∧
    ((db.users.map User.email).Nodup →
      ((create_user_state db email pw).users.map User.email).Nodup) ∧
    (∀ v : User, "password" ∉ (user_serialize v).map Prod.fst) ∧
    (∀ (db2 : DB) (pw2 : String),
      (∃ v ∈ db2.users, v.email = normalize_email email) →
      UserManager.create_user db2 email pw2 =
        Except.error (UserError.integrityError "duplicate email")) := by
  have hok : UserManager.create_user db email pw =
      Except.ok
        ({ id := db.next_user_id, email := normalize_email email
           password := PasswordHash.hashed pw },
         { db with
             users := db.users ++
               [{ id := db.next_user_id, email := normalize_email email
                  password := PasswordHash.hashed pw }]
             next_user_id := db.next_user_id + 1 }) := by
    simp only [UserManager.create_user]
    rw [if_neg h1]
    split
    next hcond =>
      have hcond2 : db.users.any
          (fun v => v.email == normalize_email email) = true := hcond
      rw [h2] at hcond2
      exact absurd hcond2 Bool.false_ne_true
    next hcond => rfl
  refine ⟨hok, ?_, ?_, ?_⟩
  · intro hnd
    have hmem : normalize_email email ∉ db.users.map User.email := by
      intro hmem
      obtain ⟨v, hv, he⟩ := List.mem_map.mp hmem
      rw [List.any_eq_false] at h2
      exact h2 v hv (beq_iff_eq.mpr he)
    have hstate : create_user_state db email pw =
        { db with
            users := db.users ++
              [{ id := db.next_user_id, email := normalize_email email
                 password := PasswordHash.hashed pw }]
            next_user_id := db.next_user_id + 1 } := by
      unfold create_user_state
      rw [hok]
    rw [hstate]
    show ((db.users ++
      [({ id := db.next_user_id, email := normalize_email email
          password := PasswordHash.hashed pw } : User)]).map User.email).Nodup
    rw [List.map_append]
    exact hnd.append (List.nodup_singleton _)
      (List.disjoint_singleton.mpr hmem)
  · intro v
    simp [user_serialize]
  · intro db2 pw2 hex
    simp only [UserManager.create_user]
    rw [if_neg h1]
    split
    next => rfl
    next hcond =>
      obtain ⟨v, hv, he⟩ := hex
      have : db2.users.any
          (fun w => w.email == normalize_email email) = true :=
        List.any_eq_true.mpr ⟨v, hv, beq_iff_eq.mpr he⟩
      exact absurd this hcond

/-- Witness for C7: creating `Test2@Example.com` on an empty store yields the
row with the domain lowercased and the password hashed. -/
theorem claim_C7_witness :
    UserManager.create_user DB.empty "Test2@Example.com" "sample12345" =
      Except.ok
        ({ id := 1, email := "Test2@example.com"
           password := PasswordHash.hashed "sample12345" },
         { users := [{ id := 1, email := "Test2@example.com"
                       password := PasswordHash.hashed "sample12345" }]
           tags := [], ingredients := [], recipes := []
           next_user_id := 2, next_tag_id := 1, next_recipe_id := 1 }) :=
  (claim_C7_email_normalization DB.empty "Test2@Example.com" "sample12345"
    (by decide) (by decide)).1

/-- C10: `create_user` with an empty email raises `ValueError` before any row
is constructed or saved (the store is unchanged), and on every successful
creation the stored password is the `set_password` hash of the argument, never
the plaintext. -/
theorem claim_C10_empty_email :
    (∀ (db : DB) (pw : String),
      UserManager.create_user db "" pw =
        Except.error (UserError.valueError "User must have an email")) ∧
    (∀ (db : DB) (pw : String), create_user_state db "" pw = db) ∧
    (∀ (db : DB) (email pw : String) (u' : User) (db' : DB),
      UserManager.create_user db email pw = Except.ok (u', db') →
      u'.password = PasswordHash.hashed pw) := by
  refine ⟨fun db pw => rfl, fun db pw => rfl, ?_⟩
  intro db email pw u' db' h
  simp only [UserManager.create_user] at h
  split at h
  · simp at h
  · split at h
    · simp at h
    · simp only [Except.ok.injEq, Prod.mk.injEq] at h
      rw [← h.1]

/-- C9: every failing credential submission — no stored user matches the
email/password pair (wrong password or unknown email alike), or the password
is blank — produces the one fixed 400 response `uniform_credential_error`,
which carries no token and does not depend on which field was wrong; a correct
pair produces 200 with the token bound to that user. -/
theorem claim_C9_uniform_token_errors (db : DB) (email pw : String) :
    ((∀ v ∈ db.users,
        ¬(v.email = email ∧ check_password pw v.password = true)) →
      create_token db email pw = uniform_credential_error) ∧
    (pw = "" → create_token db email pw = uniform_credential_error) ∧
    (uniform_credential_error.status = 400 ∧
      uniform_credential_error.token = none) ∧
    (∀ v : User, v ∈ db.users → v.email = email →
      check_password pw v.password = true → email ≠ "" → pw ≠ "" →
      (db.users.map User.email).Nodup →
      create_token db email pw =
        { status := 200, token := some (token_for v.id), detail := none }) := by
  refine ⟨?_, ?_, ⟨rfl, rfl⟩, ?_⟩
  · intro h
    unfold create_token
    by_cases hcond : email = "" ∨ pw = ""
    · rw [if_pos hcond]
    · rw [if_neg hcond]
      have hnone : db.users.find?
          (fun v => v.email == email && check_password pw v.password) =
            none := by
        rw [List.find?_eq_none]
        intro v hv hp
        simp only [Bool.and_eq_true, beq_iff_eq] at hp
        exact h v hv ⟨hp.1, hp.2⟩
      rw [hnone]
  · intro h
    unfold create_token
    rw [if_pos (Or.inr h)]
  · intro v hv hemail hcheck hne1 hne2 hnd
    unfold create_token
    rw [if_neg (by push_neg; exact ⟨hne1, hne2⟩)]
    cases hf : db.users.find?
        (fun w => w.email == email && check_password pw w.password) with
    | none =>
      rw [List.find?_eq_none] at hf
      exact absurd
        (show (fun w => w.email == email && check_password pw w.password) v
            = true by simp [hemail, hcheck])
        (hf v hv)
    | some w =>
      have hw := List.find?_some hf
      have hwm := List.mem_of_find?_eq_some hf
      simp only [Bool.and_eq_true, beq_iff_eq] at hw
      have hwv : w = v :=
        List.inj_on_of_nodup_map hnd hwm hv (by rw [hw.1, hemail])
      rw [hwv]

/-- Witness for C9: in the fixture, a wrong password, a blank password, and an
unknown email all yield the same fixed 400 body; the correct pair yields 200
with the user's token. -/
theorem claim_C9_witness :
    create_token db_fixture "test@example.com" "badpass" =
      uniform_credential_error ∧
    create_token db_fixture "test@example.com" "" =
      uniform_credential_error ∧
    create_token db_fixture "nosuch@example.com" "testpass1234" =
      uniform_credential_error ∧
    create_token db_fixture "test@example.com" "testpass1234" =
      { status := 200, token := some (token_for 1), detail := none } :=
  ⟨(claim_C9_uniform_token_errors db_fixture "test@example.com" "badpass").1
      (by decide),
   (claim_C9_uniform_token_errors db_fixture "test@example.com" "").2.1 rfl,
   (claim_C9_uniform_token_errors db_fixture "nosuch@example.com"
      "testpass1234").1 (by decide),
   (claim_C9_uniform_token_errors db_fixture "test@example.com"
      "testpass1234").2.2.2
      ⟨1, "test@example.com", PasswordHash.hashed "testpass1234", false, false⟩
      (by decide) rfl (by decide) (by decide) (by decide) (by decide)⟩

/-- C8: the claim says the tag/ingredient list endpoint returns the caller's
labels — all of them ordered by descending name by default, only
recipe-linked ones (each at most once) under a truthy `assigned_only` flag.
The ingredient half holds (its serializer and view are absent from src and
modelled from the spec: last four conjuncts).  The tag half fails on the
code: the queryset the endpoint computes is the claimed one (first four
conjuncts, over `tag_list_queryset`), but rendering it goes through src's
`TagSerializer`, whose `Meta` spells `field` instead of `fields`, so the
response is a 500 whenever at least one tag would be returned and only the
empty listing ever renders (fifth and sixth conjuncts). -/
theorem claim_C8_assigned_only (db : DB) (u : Nat)
    (hnd : db.tags.Nodup) (hndi : db.ingredients.Nodup) :
    (∀ t : Tag, t ∈ tag_list_queryset db u true ↔
      (t ∈ db.tags ∧ t.user = u ∧
        ∃ r ∈ db.recipes, r.user = u ∧ t.id ∈ r.tags)) ∧
    (tag_list_queryset db u true).Nodup ∧
    (∀ t : Tag, t ∈ tag_list_queryset db u false ↔
      (t ∈ db.tags ∧ t.user = u)) ∧
    List.Sorted (fun a b => b.name ≤ a.name) (tag_list_queryset db u false) ∧
    (∀ b : Bool, tag_list_queryset db u b ≠ [] →
      tag_list_view db u b = Except.error tagSerializerFieldsError) ∧
    (∀ b : Bool, tag_list_queryset db u b = [] →
      tag_list_view db u b = Except.ok []) ∧
    (∀ i : Ingredient, i ∈ ingredient_list_view db u true ↔
      (i ∈ db.ingredients ∧ i.user = u ∧
        ∃ r ∈ db.recipes, r.user = u ∧ i.id ∈ r.ingredients)) ∧
    (ingredient_list_view db u true).Nodup ∧
    (∀ i : Ingredient, i ∈ ingredient_list_view db u false ↔
      (i ∈ db.ingredients ∧ i.user = u)) ∧
    List.Sorted (fun a b => b.name ≤ a.name)
      (ingredient_list_view db u false) := by
  refine ⟨?_, ?_, ?_, ?_, ?_, ?_, ?_, ?_, ?_, ?_⟩
  · intro t
    show t ∈ List.insertionSort _
        ((db.tags.filter (fun t => t.user == u)).filter
          (fun t => db.recipes.any
            (fun r => r.user == u && r.tags.contains t.id))) ↔ _
    rw [(List.perm_insertionSort _ _).mem_iff]
    simp only [List.mem_filter, List.any_eq_true, Bool.and_eq_true,
      beq_iff_eq, List.elem_iff]
    tauto
  · show (List.insertionSort _
        ((db.tags.filter (fun t => t.user == u)).filter
          (fun t => db.recipes.any
            (fun r => r.user == u && r.tags.contains t.id)))).Nodup
    exact (List.perm_insertionSort _ _).nodup_iff.mpr
      ((hnd.filter _).filter _)
  · intro t
    show t ∈ List.insertionSort _
        (db.tags.filter (fun t => t.user == u)) ↔ _
    rw [(List.perm_insertionSort _ _).mem_iff]
    simp [List.mem_filter]
  · show List.Sorted _ (List.insertionSort _
      (db.tags.filter (fun t => t.user == u)))
    exact List.sorted_insertionSort _ _
  · intro b hne
    unfold tag_list_view
    cases hq : tag_list_queryset db u b with
    | nil => exact absurd hq hne
    | cons t rest => rfl
  · intro b hq
    unfold tag_list_view
    rw [hq]
  · intro i
    show i ∈ List.insertionSort _
        ((db.ingredients.filter (fun t => t.user == u)).filter
          (fun t => db.recipes.any
            (fun r => r.user == u && r.ingredients.contains t.id))) ↔ _
    rw [(List.perm_insertionSort _ _).mem_iff]
    simp only [List.mem_filter, List.any_eq_true, Bool.and_eq_true,
      beq_iff_eq, List.elem_iff]
    tauto
  · show (List.insertionSort _
        ((db.ingredients.filter (fun t => t.user == u)).filter
          (fun t => db.recipes.any
            (fun r => r.user == u && r.ingredients.contains t.id)))).Nodup
    exact (List.perm_insertionSort _ _).nodup_iff.mpr
      ((hndi.filter _).filter _)
  · intro i
    show i ∈ List.insertionSort _
        (db.ingredients.filter (fun t => t.user == u)) ↔ _
    rw [(List.perm_insertionSort _ _).mem_iff]
    simp [List.mem_filter]
  · show List.Sorted _ (List.insertionSort _
      (db.ingredients.filter (fun t => t.user == u)))
    exact List.sorted_insertionSort _ _

/-- Witness for C8: user 1 owns a tag, so the tag listing is a 500; the
ingredient listing over the extended fixture renders, deduplicated and
sorted by descending name. -/
theorem claim_C8_witness :
    tag_list_view db_fixture 1 false = Except.error tagSerializerFieldsError ∧
    (ingredient_list_view db_ing_fixture 1 true).Nodup ∧
    List.Sorted (fun a b : Ingredient => b.name ≤ a.name)
      (ingredient_list_view db_ing_fixture 1 false) :=
  ⟨(claim_C8_assigned_only db_fixture 1 (by decide) (by decide)).2.2.2.2.1
      false (by decide),
   (claim_C8_assigned_only db_ing_fixture 1 (by decide) (by decide)).2.2.2.2.2.2.2.1,
   (claim_C8_assigned_only db_ing_fixture 1 (by decide)
      (by decide)).2.2.2.2.2.2.2.2.2⟩

/-- Witness for C10: creating a user with an empty email errors and persists
nothing; a successful creation stores the hash of the argument. -/
theorem claim_C10_witness :
    UserManager.create_user db_fixture "" "test12345" =
      Except.error (UserError.valueError "User must have an email") ∧
    create_user_state db_fixture "" "test12345" = db_fixture ∧
    ({ id := 3, email := "new@example.com"
       password := PasswordHash.hashed "newpass123" } : User).password =
      PasswordHash.hashed "newpass123" :=
  ⟨claim_C10_empty_email.1 db_fixture "test12345",
   claim_C10_empty_email.2.1 db_fixture "test12345",
   claim_C10_empty_email.2.2 db_fixture "new@example.com" "newpass123"
     { id := 3, email := "new@example.com"
       password := PasswordHash.hashed "newpass123" }
     { db_fixture with
         users := db_fixture.users ++
           [{ id := 3, email := "new@example.com"
              password := PasswordHash.hashed "newpass123" }]
         next_user_id := 4 }
     rfl⟩
